import Mathlib

/-!
Verification of the stock-dashboard backend (`backend/main.py`).

The backend is embedded shallowly:

* Upstream numeric data (Python/numpy floats) is modelled by exact
  rationals `ℚ`.  A float value that may be non-finite (`inf`/`NaN`,
  as produced by numpy division by zero) is modelled by `Option ℚ`,
  with `none` standing for a non-finite value.
* `round(x, 2)` (Python builtin, which numpy floats delegate to) is
  modelled by `round2`: round half to even at the second decimal.
* `int(x)` on a float is modelled by `truncToZero`: truncation toward
  zero.
* `info.get(key, default)` on the upstream record is modelled by
  `Option.getD` on optional fields of `RawInfo`.
* An upstream fetch that raises (network failure, unknown symbol,
  empty history frame) is modelled by the fetch function returning
  `none` (for the quote path) or `Except.error` (for the chart path).
-/

/-- One raw upstream `stock.info` mapping: each field may be absent. -/
structure RawInfo where
  previousClose : Option ℚ
  marketCap : Option ℚ
  trailingPE : Option ℚ
  trailingEps : Option ℚ
deriving DecidableEq, Repr

/-- The last row of the upstream 1-day/1-minute history frame
(`stock.history(...).iloc[-1]`): `Close` and `Volume` columns. -/
structure RawHistory where
  close : ℚ
  volume : ℚ
deriving DecidableEq, Repr

/-- Everything `get_stock_data` reads from upstream for one ticker. -/
structure Raw where
  info : RawInfo
  history : RawHistory
deriving DecidableEq, Repr

/-- Python `round(x, 2)` on exact values: round half to even at the
second decimal place. -/
def round2 (q : ℚ) : ℚ :=
  let x := q * 100
  let f := ⌊x⌋
  let r := x - (f : ℚ)
  let n : ℤ :=
    if r < 1/2 then f
    else if 1/2 < r then f + 1
    else if f % 2 = 0 then f else f + 1
  (n : ℚ) / 100

/-- Python `int(x)` on a float: truncation toward zero. -/
def truncToZero (q : ℚ) : ℤ :=
  if 0 ≤ q then ⌊q⌋ else ⌈q⌉

/-- numpy float division: dividing by zero yields a non-finite value
(`inf`/`NaN`), modelled as `none`. -/
def pyDiv (a b : ℚ) : Option ℚ :=
  if b = 0 then none else some (a / b)

/-- The canonical quote produced by `get_stock_data`.  `changePct`
is `Option ℚ` because the division feeding it can produce a
non-finite float; every other field is always a finite number. -/
structure Quote where
  symbol : String
  currentValue : ℚ
  previousClose : ℚ
  change : ℚ
  changePct : Option ℚ
  volume : ℚ
  marketCap : ℚ
  peRatio : ℚ
  eps : ℚ
deriving DecidableEq, Repr

/-- `get_stock_data(ticker)` from `backend/main.py`, applied to the raw
record the upstream calls returned.  Field by field:
`currentValue = round(history["Close"], 2)`,
`previousClose = round(info.get("previousClose", 0), 2)`,
`change = round(history["Close"] - info.get("previousClose", 0), 2)`,
`changePct = round(((Close - info.get("previousClose", 0)) /
                    info.get("previousClose", 1)) * 100, 2)`,
`volume = history["Volume"]` (no conversion),
`marketCap = info.get("marketCap", 0)`,
`peRatio = round(info.get("trailingPE", 0), 2)`,
`eps = info.get("trailingEps", 0)`. -/
def get_stock_data (ticker : String) (r : Raw) : Quote :=
  { symbol := ticker
    currentValue := round2 r.history.close
    previousClose := round2 (r.info.previousClose.getD 0)
    change := round2 (r.history.close - r.info.previousClose.getD 0)
    changePct :=
      (pyDiv (r.history.close - r.info.previousClose.getD 0)
        (r.info.previousClose.getD 1)).map (fun x => round2 (x * 100))
    volume := r.history.volume
    marketCap := r.info.marketCap.getD 0
    peRatio := round2 (r.info.trailingPE.getD 0)
    eps := r.info.trailingEps.getD 0 }

/-- The configured ticker list `TICKERS`. -/
def TICKERS : List String :=
  ["HII", "GD", "TXT", "LDOS", "KTOS", "MRCY", "CW", "HEI", "RCAT", "PLTR"]

/-- The `for ticker in TICKERS` loop of the `/stocks` handler: attempt
the fetch + normalize for each ticker; on failure (`fetch t = none`)
log and skip the ticker; otherwise append its quote. -/
def get_stocksLoop (fetch : String → Option Raw) : List String → List Quote
  | [] => []
  | t :: rest =>
    match fetch t with
    | some r => get_stock_data t r :: get_stocksLoop fetch rest
    | none => get_stocksLoop fetch rest

/-- The snapshot produced by the `/stocks` handler body. -/
def get_stocks (fetch : String → Option Raw) : List Quote :=
  get_stocksLoop fetch TICKERS

/-- The `/stocks` handler with its outer `try/except` branch: the loop
body is total (every per-ticker failure is caught by the inner
`except`), so the handler always reaches the `return`. -/
def get_stocksHandler (fetch : String → Option Raw) :
    Except String (List Quote) :=
  Except.ok (get_stocks fetch)

/-- One raw historical bar from `stock.history(period)`: the formatted
date index plus the Open/High/Low/Close/Volume columns. -/
structure Bar where
  date : String
  open_ : ℚ
  high : ℚ
  low : ℚ
  close : ℚ
  volume : ℚ
deriving DecidableEq, Repr

/-- One record of the chart response. -/
structure ChartRec where
  date : String
  open_ : ℚ
  high : ℚ
  low : ℚ
  close : ℚ
  volume : ℤ
deriving DecidableEq, Repr

/-- The per-row body of the chart loop: OHLC are `round(・, 2)`;
volume is `int(row["Volume"])`. -/
def normBar (b : Bar) : ChartRec :=
  { date := b.date
    open_ := round2 b.open_
    high := round2 b.high
    low := round2 b.low
    close := round2 b.close
    volume := truncToZero b.volume }

/-- The `for index, row in df.iterrows()` append loop of the chart
handler. -/
def chartLoop : List Bar → List ChartRec
  | [] => []
  | b :: rest => normBar b :: chartLoop rest

/-- The `/stock/{ticker}/chart` handler: the whole body is inside one
`try`; a failing upstream fetch raises and is converted into a single
`HTTPException` (modelled as `Except.error`), otherwise the fully built
list is returned. -/
def get_stock_chart (hist : Except String (List Bar)) :
    Except String (List ChartRec) :=
  match hist with
  | Except.error e => Except.error e
  | Except.ok bars => Except.ok (chartLoop bars)

/-- One websocket connection task (`websocket_endpoint`): each cycle it
polls a snapshot and attempts to send it; the first failing send raises,
the exception is caught, and the connection is closed.  A cycle is
modelled as `(snapshot, sendOk)`. The result is the list of snapshots
actually delivered, paired with whether the connection was closed by a
send failure. -/
def runConn : List (List Quote × Bool) → List (List Quote) × Bool
  | [] => ([], false)
  | (snap, ok) :: rest =>
    if ok then
      let res := runConn rest
      (snap :: res.1, res.2)
    else ([], true)

/-- All currently connected websocket clients: each runs its own
independent `websocket_endpoint` task over its own cycle script. -/
def broadcastAll (scripts : List (List (List Quote × Bool))) :
    List (List (List Quote) × Bool) :=
  scripts.map runConn

-- Basic structural lemmas about the snapshot loop.

lemma get_stocksLoop_eq_filterMap (fetch : String → Option Raw) :
    ∀ l : List String,
      get_stocksLoop fetch l = l.filterMap (fun t => (fetch t).map (get_stock_data t))
  | [] => rfl
  | t :: rest => by
    cases h : fetch t with
    | none =>
      simp [get_stocksLoop, h, List.filterMap_cons,
        get_stocksLoop_eq_filterMap fetch rest]
    | some r =>
      simp [get_stocksLoop, h, List.filterMap_cons,
        get_stocksLoop_eq_filterMap fetch rest]

lemma get_stocksLoop_length (fetch : String → Option Raw) :
    ∀ l : List String,
      (get_stocksLoop fetch l).length
        + l.countP (fun t => (fetch t).isNone) = l.length
  | [] => rfl
  | t :: rest => by
    have ih := get_stocksLoop_length fetch rest
    cases h : fetch t with
    | none =>
      simp only [get_stocksLoop, h, List.countP_cons, Option.isNone_none,
        List.length_cons, eq_self_iff_true, if_true]
      omega
    | some r =>
      simp only [get_stocksLoop, h, List.countP_cons, Option.isNone_some,
        List.length_cons, Bool.false_eq_true, if_false]
      omega

lemma mem_get_stocksLoop_of_fetch (fetch : String → Option Raw)
    {t : String} {r : Raw} :
    ∀ l : List String, t ∈ l → fetch t = some r →
      get_stock_data t r ∈ get_stocksLoop fetch l := by
  intro l
  induction l with
  | nil => intro h; cases h
  | cons s rest ih =>
    intro hmem hf
    cases hmem with
    | head =>
      simp [get_stocksLoop, hf]
    | tail _ htail =>
      cases h : fetch s with
      | none => simpa [get_stocksLoop, h] using ih htail hf
      | some r₂ =>
        simp only [get_stocksLoop, h, List.mem_cons]
        exact Or.inr (ih htail hf)

lemma get_stocksLoop_symbols_sublist (fetch : String → Option Raw) :
    ∀ l : List String,
      List.Sublist ((get_stocksLoop fetch l).map Quote.symbol) l
  | [] => List.Sublist.slnil
  | t :: rest => by
    cases h : fetch t with
    | none =>
      simp only [get_stocksLoop, h]
      exact List.Sublist.cons t (get_stocksLoop_symbols_sublist fetch rest)
    | some r =>
      simp only [get_stocksLoop, h, List.map_cons]
      exact List.Sublist.cons₂ t (get_stocksLoop_symbols_sublist fetch rest)

lemma exists_of_mem_get_stocksLoop (fetch : String → Option Raw)
    {q : Quote} :
    ∀ l : List String, q ∈ get_stocksLoop fetch l →
      ∃ t r, t ∈ l ∧ fetch t = some r ∧ q = get_stock_data t r := by
  intro l
  induction l with
  | nil => intro h; cases h
  | cons s rest ih =>
    intro hmem
    cases h : fetch s with
    | none =>
      rw [get_stocksLoop, h] at hmem
      obtain ⟨t, r, ht, hf, hq⟩ := ih hmem
      exact ⟨t, r, List.mem_cons_of_mem s ht, hf, hq⟩
    | some r =>
      rw [get_stocksLoop, h] at hmem
      cases hmem with
      | head => exact ⟨s, r, List.mem_cons_self s rest, h, rfl⟩
      | tail _ htail =>
        obtain ⟨t, r₂, ht, hf, hq⟩ := ih htail
        exact ⟨t, r₂, List.mem_cons_of_mem s ht, hf, hq⟩

lemma get_stocksLoop_all_fail (fetch : String → Option Raw) :
    ∀ l : List String, (∀ t, t ∈ l → fetch t = none) →
      get_stocksLoop fetch l = [] := by
  intro l
  induction l with
  | nil => intro _; rfl
  | cons s rest ih =>
    intro h
    rw [get_stocksLoop, h s (List.mem_cons_self s rest)]
    exact ih (fun t ht => h t (List.mem_cons_of_mem s ht))

lemma chartLoop_eq_map : ∀ bars : List Bar, chartLoop bars = bars.map normBar
  | [] => rfl
  | b :: rest => by rw [chartLoop, List.map_cons, chartLoop_eq_map rest]

lemma round2_zero : round2 0 = 0 := by norm_num [round2]

/-- `round2` is the identity on exact multiples of `1/100`: rounding
to two decimals does not move a value that already has two decimals. -/
lemma round2_intCast_div_100 (k : ℤ) : round2 ((k : ℚ) / 100) = (k : ℚ) / 100 := by
  have h100 : (100 : ℚ) ≠ 0 := by norm_num
  have hx : ((k : ℚ) / 100) * 100 = (k : ℚ) := div_mul_cancel₀ _ h100
  have hf : ⌊((k : ℚ) / 100) * 100⌋ = k := by rw [hx]; exact Int.floor_intCast k
  simp only [round2, hf, hx]
  norm_num

-- Concrete inputs used by the counterexamples and witnesses below.

/-- A raw record whose `previousClose` key is PRESENT and equals `0`. -/
def rawZero : Raw := ⟨⟨some 0, none, none, none⟩, ⟨50, 1000⟩⟩

/-- Upstream succeeding only for `"GD"`, with `previousClose = 0`. -/
def fetchZero : String → Option Raw :=
  fun t => if t = "GD" then some rawZero else none

/-- A raw record whose `previousClose` key is MISSING. -/
def rawMissing : Raw := ⟨⟨none, none, none, none⟩, ⟨50, 1000⟩⟩

/-- A raw record for the C2 witness. -/
def rawOk : Raw := ⟨⟨some 10, some 5, some 2, some 1⟩, ⟨20, 300⟩⟩

/-- Upstream succeeding only for `"GD"` with a fully populated record. -/
def fetchOk : String → Option Raw :=
  fun t => if t = "GD" then some rawOk else none

/-- Upstream succeeding only for `"TXT"` with every info key missing. -/
def fetchAllMissing : String → Option Raw :=
  fun t => if t = "TXT" then some rawMissing else none

/-- A raw record with a fractional, negative upstream volume. -/
def rawBadVolume : Raw := ⟨⟨some 10, none, none, none⟩, ⟨20, (-1)/2⟩⟩

/-- Upstream succeeding only for `"HII"` with the bad volume record. -/
def fetchBadVolume : String → Option Raw :=
  fun t => if t = "HII" then some rawBadVolume else none

/-- A raw record with `Close = 1.006` and `previousClose = 0.002`:
rounding the difference differs from the difference of the roundings. -/
def rawSubCent : Raw := ⟨⟨some (1/500), none, none, none⟩, ⟨503/500, 100⟩⟩

/-- Upstream succeeding only for `"HII"` with the sub-cent record. -/
def fetchSubCent : String → Option Raw :=
  fun t => if t = "HII" then some rawSubCent else none

/-- A raw record whose prices are exact multiples of a cent. -/
def rawCents : Raw := ⟨⟨some (45/100), none, none, none⟩, ⟨123/100, 100⟩⟩

-- Claims.

/-- Claim C1, counterexample. The spec claims `changePct` is always
finite because a zero `previousClose` is replaced by the fallback
denominator `1`.  On the code the fallback `info.get("previousClose", 1)`
fires only when the key is absent: with `previousClose` present and
equal to `0` the quote is built with a division by zero, so its
`changePct` is non-finite (`none` in the embedding), and that quote
does reach the snapshot. -/
theorem changePct_zero_previousClose_counterexample :
    get_stock_data "GD" rawZero ∈ get_stocks fetchZero ∧
      Quote.changePct (get_stock_data "GD" rawZero) = none := by
  constructor
  · simp [get_stocks, TICKERS, get_stocksLoop, fetchZero]
  · simp [get_stock_data, rawZero, pyDiv]

/-- Claim C1, amended. The denominator fallback of `1` applies only when
the upstream record has no `previousClose` key at all; in that case, and
whenever a present `previousClose` is nonzero, `changePct` is a finite
number.  When `previousClose` is present and equal to `0`, the division
is by zero and `changePct` is non-finite. -/
theorem changePct_fallback_only_when_missing (t : String) (r : Raw) :
    (r.info.previousClose = none →
      Quote.changePct (get_stock_data t r)
        = some (round2 (r.history.close * 100))) ∧
    (∀ v : ℚ, r.info.previousClose = some v → v ≠ 0 →
      (Quote.changePct (get_stock_data t r)).isSome = true) ∧
    (r.info.previousClose = some 0 →
      Quote.changePct (get_stock_data t r) = none) := by
  refine ⟨?_, ?_, ?_⟩
  · intro h
    simp [get_stock_data, h, pyDiv]
  · intro v h hv
    simp [get_stock_data, h, pyDiv, hv]
  · intro h
    simp [get_stock_data, h, pyDiv]

/-- Claim C1, witness: with `previousClose` missing and `Close = 50`,
`changePct` is the finite value `round2 (50 * 100) = 5000`. -/
theorem changePct_fallback_witness :
    Quote.changePct (get_stock_data "HII" rawMissing) = some 5000 := by
  have h := (changePct_fallback_only_when_missing "HII" rawMissing).1 rfl
  rw [h]
  norm_num [rawMissing, round2]

/-- Claim C2. For any upstream outcome over the `N = TICKERS.length`
configured tickers of which `K` fail, the snapshot has exactly `N - K`
entries, and each succeeding ticker contributes the quote computed from
its own raw record alone — a quote that is therefore unaffected by the
failures of the other tickers. -/
theorem snapshot_size_and_isolation (fetch : String → Option Raw) :
    (get_stocks fetch).length
        = TICKERS.length - TICKERS.countP (fun t => (fetch t).isNone) ∧
    (∀ t r, t ∈ TICKERS → fetch t = some r →
      get_stock_data t r ∈ get_stocks fetch) := by
  constructor
  · have h := get_stocksLoop_length fetch TICKERS
    simp only [get_stocks]
    omega
  · intro t r ht hf
    exact mem_get_stocksLoop_of_fetch fetch TICKERS ht hf

/-- Claim C2, witness: with nine tickers failing and `"GD"` succeeding,
the snapshot has `10 - 9 = 1` entry, namely the quote computed for
`"GD"` from its own raw record. -/
theorem snapshot_size_and_isolation_witness :
    get_stock_data "GD" rawOk ∈ get_stocks fetchOk :=
  (snapshot_size_and_isolation fetchOk).2 "GD" rawOk (by simp [TICKERS])
    (by simp [fetchOk])

/-- Claim C3. The symbols of any snapshot form a sublist of the configured
`TICKERS` list: they are a subset of the configured set, appear in
configured-ticker order, and (as `TICKERS` has no duplicates) each
appears at most once. -/
theorem snapshot_symbols_ordered_subset (fetch : String → Option Raw) :
    List.Sublist ((get_stocks fetch).map Quote.symbol) TICKERS ∧
    ((get_stocks fetch).map Quote.symbol).Nodup := by
  have hs := get_stocksLoop_symbols_sublist fetch TICKERS
  have hnd : TICKERS.Nodup := by decide
  exact ⟨hs, hnd.sublist hs⟩

/-- Claim C4. Every quote in a snapshot is the total normalization of the
raw record returned by the successful fetch of its own ticker, so all nine
fields are populated, with `0` substituted for each missing upstream
numeric field; a ticker whose fetch failed contributes nothing, and the
symbol of every quote present is one whose fetch succeeded. -/
theorem quote_fully_populated_or_absent (fetch : String → Option Raw)
    (q : Quote) (hq : q ∈ get_stocks fetch) :
    ∃ t r, t ∈ TICKERS ∧ fetch t = some r ∧ q = get_stock_data t r ∧
      fetch ( Quote.symbol q) = some r ∧
      (r.info.previousClose = none → Quote.previousClose q = 0) ∧
      (r.info.marketCap = none → Quote.marketCap q = 0) ∧
      (r.info.trailingPE = none → Quote.peRatio q = 0) ∧
      (r.info.trailingEps = none → Quote.eps q = 0) := by
  obtain ⟨t, r, ht, hf, hq⟩ := exists_of_mem_get_stocksLoop fetch TICKERS hq
  subst hq
  refine ⟨t, r, ht, hf, rfl, hf, ?_, ?_, ?_, ?_⟩
  · intro h; simp [get_stock_data, h, round2_zero]
  · intro h; simp [get_stock_data, h]
  · intro h; simp [get_stock_data, h, round2_zero]
  · intro h; simp [get_stock_data, h]

/-- Claim C4, witness: the quote for `"TXT"`, whose raw record has every
optional info key missing, sits in the snapshot with all defaulted
fields equal to `0`. -/
theorem quote_fully_populated_witness :
    ∃ t r, t ∈ TICKERS ∧ fetchAllMissing t = some r ∧
      get_stock_data "TXT" rawMissing = get_stock_data t r ∧
      fetchAllMissing ( Quote.symbol (get_stock_data "TXT" rawMissing)) = some r ∧
      (r.info.previousClose = none →
        Quote.previousClose (get_stock_data "TXT" rawMissing) = 0) ∧
      (r.info.marketCap = none →
        Quote.marketCap (get_stock_data "TXT" rawMissing) = 0) ∧
      (r.info.trailingPE = none →
        Quote.peRatio (get_stock_data "TXT" rawMissing) = 0) ∧
      (r.info.trailingEps = none →
        Quote.eps (get_stock_data "TXT" rawMissing) = 0) :=
  quote_fully_populated_or_absent fetchAllMissing
    (get_stock_data "TXT" rawMissing)
    (by simp [get_stocks, TICKERS, get_stocksLoop, fetchAllMissing])

/-- Claim C5. Each websocket client runs its own independent loop, so the
result (deliveries and closure) of connection `j` depends only on
the cycle script of connection `j` itself — a send failure on another connection
cannot change it; and a connection whose send fails after a run of
successful cycles has delivered exactly those snapshots, delivers
nothing further, and is closed. -/
theorem broadcast_isolation :
    (∀ (s₁ s₂ : List (List (List Quote × Bool))) (j : ℕ),
      s₁[j]? = s₂[j]? → (broadcastAll s₁)[j]? = (broadcastAll s₂)[j]?) ∧
    (∀ (pre : List (List Quote × Bool)) (snap : List Quote)
        (rest : List (List Quote × Bool)),
      (∀ c ∈ pre, c.2 = true) →
      runConn (pre ++ (snap, false) :: rest) = (pre.map Prod.fst, true)) := by
  constructor
  · intro s₁ s₂ j h
    simp only [broadcastAll, List.getElem?_map, h]
  · intro pre snap rest hpre
    induction pre with
    | nil => simp [runConn]
    | cons c pre ih =>
      obtain ⟨m, b⟩ := c
      have hb : b = true := hpre (m, b) (List.mem_cons_self _ _)
      subst hb
      have h2 := ih (fun c hc => hpre c (List.mem_cons_of_mem _ hc))
      simp only [List.cons_append, runConn, if_true, List.append_eq, h2,
        List.map_cons]

/-- Claim C5, witness: two connections with identical scripts give the
same result at index 0, and a connection failing on its second cycle
delivered exactly its first snapshot and ends closed. -/
theorem broadcast_isolation_witness :
    (broadcastAll [[([], true)], [([], false)]])[0]?
        = (broadcastAll [[([], true)], [([], true)]])[0]? ∧
    runConn [([], true), ([], false)] = ([[]], true) :=
  ⟨broadcast_isolation.1 [[([], true)], [([], false)]]
      [[([], true)], [([], true)]] 0 rfl,
    broadcast_isolation.2 [([], true)] [] [] (by simp)⟩

/-- Claim C6. The chart handler maps an upstream failure to a single
error for the whole request and an upstream success to the full
normalized series — it never returns partial chart data. -/
theorem chart_error_is_whole_request (hist : Except String (List Bar)) :
    get_stock_chart hist = Except.map (List.map normBar) hist := by
  cases hist with
  | error e => rfl
  | ok bars => simp [get_stock_chart, Except.map, chartLoop_eq_map]

/-- Claim C7. The chart normalizer emits exactly one record per upstream
bar, in the same order, with OHLC rounded to two decimals by `round2`
and volume converted to an integer by truncation toward zero. -/
theorem chart_normalizer_shape (bars : List Bar) :
    (chartLoop bars).length = bars.length ∧
    (∀ i : ℕ, (chartLoop bars)[i]? = (bars[i]?).map normBar) ∧
    (∀ b : Bar,
      ChartRec.date (normBar b) = Bar.date b ∧
      ChartRec.open_ (normBar b) = round2 (Bar.open_ b) ∧
      ChartRec.high (normBar b) = round2 (Bar.high b) ∧
      ChartRec.low (normBar b) = round2 (Bar.low b) ∧
      ChartRec.close (normBar b) = round2 (Bar.close b) ∧
      ChartRec.volume (normBar b) = truncToZero (Bar.volume b)) := by
  refine ⟨?_, ?_, ?_⟩
  · rw [chartLoop_eq_map, List.length_map]
  · intro i
    rw [chartLoop_eq_map, List.getElem?_map]
  · intro b
    exact ⟨rfl, rfl, rfl, rfl, rfl, rfl⟩

/-- Claim C8. The `/stocks` handler never reaches its error branch: for
every upstream outcome it returns `ok` with the (possibly empty)
snapshot list, and when every configured ticker fails it returns the
empty list rather than an error. -/
theorem snapshot_never_fails (fetch : String → Option Raw) :
    get_stocksHandler fetch = Except.ok (get_stocks fetch) ∧
    ((∀ t, t ∈ TICKERS → fetch t = none) →
      get_stocksHandler fetch = Except.ok []) := by
  refine ⟨rfl, ?_⟩
  intro h
  unfold get_stocksHandler get_stocks
  rw [get_stocksLoop_all_fail fetch TICKERS h]

/-- Claim C8, witness: with upstream failing for every ticker the
handler returns `ok []`. -/
theorem snapshot_never_fails_witness :
    get_stocksHandler (fun _ => none) = Except.ok [] :=
  (snapshot_never_fails (fun _ => none)).2 (fun _ _ => rfl)

/-- Claim C9, counterexample. The spec claims `volume` is an integer
`≥ 0`.  The code copies `history["Volume"]` into the quote without any
conversion or validation, so an upstream record carrying `-1/2` as its
volume yields a snapshot quote whose volume is neither an integer nor
nonnegative. -/
theorem volume_unvalidated_counterexample :
    get_stock_data "HII" rawBadVolume ∈ get_stocks fetchBadVolume ∧
    ¬((Quote.volume (get_stock_data "HII" rawBadVolume)).den = 1 ∧
        0 ≤ Quote.volume (get_stock_data "HII" rawBadVolume)) := by
  constructor
  · simp [get_stocks, TICKERS, get_stocksLoop, fetchBadVolume]
  · rintro ⟨-, h⟩
    rw [show Quote.volume (get_stock_data "HII" rawBadVolume)
        = (-1)/2 from rfl] at h
    norm_num at h

/-- Claim C9, amended. The `volume` field of the quote is the upstream history
volume passed through unchanged; it is an integer `≥ 0` exactly when
the upstream value is. -/
theorem volume_passthrough (t : String) (r : Raw) :
    Quote.volume (get_stock_data t r) = r.history.volume ∧
    (r.history.volume.den = 1 → 0 ≤ r.history.volume →
      (Quote.volume (get_stock_data t r)).den = 1 ∧
        0 ≤ Quote.volume (get_stock_data t r)) := by
  refine ⟨rfl, ?_⟩
  intro h1 h2
  exact ⟨h1, h2⟩

/-- Claim C9, witness: an upstream integer volume `300 ≥ 0` passes
through as an integer `≥ 0`. -/
theorem volume_passthrough_witness :
    (Quote.volume (get_stock_data "GD" rawOk)).den = 1 ∧
      0 ≤ Quote.volume (get_stock_data "GD" rawOk) :=
  (volume_passthrough "GD" rawOk).2 (by norm_num [rawOk]) (by norm_num [rawOk])

/-- Claim C10, counterexample. The spec claims `change` equals
`currentValue - previousClose`.  The code rounds the three quantities
independently: with `Close = 1.006` and `previousClose = 0.002`,
`change = round2(1.004) = 1.00` while
`currentValue - previousClose = 1.01 - 0.00 = 1.01`, and the quote
reaches the snapshot. -/
theorem change_rounding_counterexample :
    get_stock_data "HII" rawSubCent ∈ get_stocks fetchSubCent ∧
    Quote.change (get_stock_data "HII" rawSubCent)
      ≠ Quote.currentValue (get_stock_data "HII" rawSubCent)
          - Quote.previousClose (get_stock_data "HII" rawSubCent) := by
  constructor
  · simp [get_stocks, TICKERS, get_stocksLoop, fetchSubCent]
  · norm_num [get_stock_data, rawSubCent, round2]

/-- Claim C10, amended. `change` is the difference of the RAW close and
raw previous close, rounded to two decimals; it coincides with
`currentValue - previousClose` whenever both raw prices are exact
multiples of a cent (so that rounding moves nothing). -/
theorem change_eq_rounded_raw_difference (t : String) (r : Raw) :
    Quote.change (get_stock_data t r)
      = round2 (r.history.close - r.info.previousClose.getD 0) ∧
    (∀ k m : ℤ, r.history.close = (k : ℚ) / 100 →
      r.info.previousClose.getD 0 = (m : ℚ) / 100 →
      Quote.change (get_stock_data t r)
        = Quote.currentValue (get_stock_data t r)
            - Quote.previousClose (get_stock_data t r)) := by
  refine ⟨rfl, ?_⟩
  intro k m hk hm
  have hdiff : r.history.close - r.info.previousClose.getD 0
      = ((k - m : ℤ) : ℚ) / 100 := by
    rw [hk, hm]
    push_cast
    ring
  show round2 (r.history.close - r.info.previousClose.getD 0)
      = round2 r.history.close - round2 (r.info.previousClose.getD 0)
  rw [hdiff, hk, hm, round2_intCast_div_100, round2_intCast_div_100,
    round2_intCast_div_100]
  push_cast
  ring

/-- Claim C10, witness: with `Close = 1.23` and `previousClose = 0.45`,
both exact cents, `change = currentValue - previousClose`. -/
theorem change_eq_rounded_raw_difference_witness :
    Quote.change (get_stock_data "HII" rawCents)
      = Quote.currentValue (get_stock_data "HII" rawCents)
          - Quote.previousClose (get_stock_data "HII" rawCents) :=
  (change_eq_rounded_raw_difference "HII" rawCents).2 123 45
    (by norm_num [rawCents]) (by norm_num [rawCents])
